import Mathlib

/-!
Verification of the animation timing engine of `src/logos/create_rotating_gif_spline.py`.

The pipeline (integrator, loop-closure normalizer, hold-still extender, plan
assembly) is embedded as functions over a linearly ordered field with a floor
(instantiated at the rationals for concrete evaluation), with Python's float
`%`, `int(...)` and `round(...)` modelled by `pymod`, `pyInt` and `pyRound`.
The slowdown-curve evaluators, which use `math.exp` and `math.cos`, are
embedded over the reals.
-/

namespace LifeTools

/-- Python's float modulo `a % m` for `m > 0`: the result has the sign of the
divisor, `a - m * floor (a / m)`. -/
def pymod {α : Type*} [LinearOrderedField α] [FloorRing α] (a m : α) : α :=
  a - m * ⌊a / m⌋

/-- Python's `int(x)` applied to a float: truncation toward zero. -/
def pyInt {α : Type*} [LinearOrderedField α] [FloorRing α] (x : α) : ℤ :=
  if 0 ≤ x then ⌊x⌋ else ⌈x⌉

/-- Python's builtin `round(x)` on a float: round half to even. -/
def pyRound {α : Type*} [LinearOrderedField α] [FloorRing α] (x : α) : ℤ :=
  if x - ⌊x⌋ < 1 / 2 then ⌊x⌋
  else if 1 / 2 < x - ⌊x⌋ then ⌊x⌋ + 1
  else if 2 ∣ ⌊x⌋ then ⌊x⌋ else ⌊x⌋ + 1

section Pipeline

variable {α : Type*} [LinearOrderedField α] [FloorRing α]

/-- The integration loop of `create_rotating_gif_spline` (lines 39-55 of the
source): starting from `current_time` and accumulated `total_angle`, while
`current_time <= animation_length` record the time and the raw angle, evaluate
the slowdown curve at `(current_time, animation_length)`, add
`velocity * frame_duration` to the angle and advance time by one
`frame_duration`.  The loop is written with explicit fuel; `integrate` below
supplies exactly the number of iterations the `while` condition allows, so the
fuel never runs out on the inputs where the Python loop terminates. -/
def integLoop (curve : α → α → α) (animation_length frame_duration : α) :
    ℕ → α → α → List α × List α × α
  | 0, _, total_angle => ([], [], total_angle)
  | fuel + 1, current_time, total_angle =>
    if current_time ≤ animation_length then
      let velocity := curve current_time animation_length
      let angle_delta := velocity * frame_duration
      let rest := integLoop curve animation_length frame_duration fuel
        (current_time + frame_duration) (total_angle + angle_delta)
      (current_time :: rest.1, total_angle :: rest.2.1, rest.2.2)
    else ([], [], total_angle)

/-- Number of iterations of the `while current_time <= animation_length` loop
started at time `0` with step `frame_duration`: `floor (L / fd) + 1` when
`L ≥ 0` and `fd > 0` (with `fd ≤ 0` the Python loop diverges, which the
embedding does not model). -/
def integFuel (animation_length frame_duration : α) : ℕ :=
  if 0 ≤ animation_length ∧ 0 < frame_duration then
    ⌊animation_length / frame_duration⌋.toNat + 1
  else 0

/-- The integrator: runs `integLoop` from `t = 0`, `angle = 0` and returns
`(times, raw_angles, total_angle)`. -/
def integrate (curve : α → α → α) (animation_length frame_duration : α) :
    List α × List α × α :=
  integLoop curve animation_length frame_duration
    (integFuel animation_length frame_duration) 0 0

/-- The loop-closure normalizer (lines 62-78 of the source).  If
`total_angle < 270` the raw angles are only reduced `mod 360` (with a printed
note, no rescaling).  Otherwise `num_full_rotations = round (total_angle/360)`,
`target_angle = num_full_rotations * 360`, every raw angle is multiplied by
`scale_factor = target_angle / total_angle`, `total_angle` becomes
`target_angle`, and the scaled angles are reduced `mod 360`.  Returns the
normalized angle list and the updated `total_angle`. -/
def normalizeAngles (angles : List α) (total_angle : α) : List α × α :=
  if total_angle < 270 then
    (angles.map fun angle => pymod angle 360, total_angle)
  else
    let num_full_rotations : ℤ := pyRound (total_angle / 360)
    let target_angle : α := (num_full_rotations : α) * 360
    let scale_factor := target_angle / total_angle
    (((angles.map fun angle => angle * scale_factor).map
        fun angle => pymod angle 360),
      target_angle)

/-- The assignment `angles[-1] = 0.0` (line 81 of the source): replaces the
last element of the list; on an empty list Python raises `IndexError`, which
is modelled by `none`. -/
def setLast (l : List α) (v : α) : Option (List α) :=
  match l with
  | [] => none
  | _ :: _ => some (l.dropLast ++ [v])

/-- The hold-still extender (lines 84-89 of the source): when
`hold_still > 0`, appends `int (hold_still / frame_duration)` frames at angle
`0`; otherwise nothing. -/
def holdFrames (hold_still frame_duration : α) : List α :=
  if 0 < hold_still then
    List.replicate (pyInt (hold_still / frame_duration)).toNat 0
  else []

/-- The timing core of `create_rotating_gif_spline`: integrate the curve,
normalize for loop closure, force the last angle to `0`, append the
hold-still frames, and pair every angle with the frame duration converted to
integer milliseconds by `int (frame_duration * 1000)` (truncation).  The
result is the ordered animation plan of `(angle, duration_ms)` frames;
`none` models the `IndexError` of `angles[-1]` on an empty sample list. -/
def create_rotating_gif_spline (curve : α → α → α)
    (animation_length frame_duration hold_still : α) :
    Option (List (α × ℤ)) :=
  let r := integrate curve animation_length frame_duration
  let n := normalizeAngles r.2.1 r.2.2
  match setLast n.1 0 with
  | none => none
  | some angles' =>
    let finalAngles := angles' ++ holdFrames hold_still frame_duration
    let duration_ms := pyInt (frame_duration * 1000)
    some (finalAngles.map fun angle => (angle, duration_ms))

end Pipeline

/-- The `linear_slowdown` curve of the source over the rationals, for concrete
evaluation: constant deceleration from `initial_speed` to `0` over
`animation_length`, clamped at `0`. -/
def linear_slowdown_rat (t animation_length initial_speed : ℚ) : ℚ :=
  max (initial_speed - initial_speed / animation_length * t) 0

/-- The curve callback `lambda t, length: linear_slowdown(t, length, 720)`
built by `main` for `--curve linear --initial-speed 720`. -/
def linearCurve720 : ℚ → ℚ → ℚ :=
  fun t length => linear_slowdown_rat t length 720

/-- The curve callback for `--curve linear --initial-speed 100`. -/
def linearCurve100 : ℚ → ℚ → ℚ :=
  fun t length => linear_slowdown_rat t length 100

section Curves

/-- Exponential decay slowdown curve (source lines 148-163):
`initial_speed * exp (-(decay_factor / animation_length) * t)`. -/
noncomputable def exponential_slowdown
    (t animation_length initial_speed decay_factor : ℝ) : ℝ :=
  let decay_rate := decay_factor / animation_length
  initial_speed * Real.exp (-decay_rate * t)

/-- Exponential decay slowdown with a floor (source lines 166-185): identical
to the exponential curve for `t ≤ 0.7 * animation_length`, and clamped to the
value at the threshold beyond it. -/
noncomputable def exponential_slowdown_with_min
    (t animation_length initial_speed decay_factor : ℝ) : ℝ :=
  let decay_rate := decay_factor / animation_length
  let res := initial_speed * Real.exp (-decay_rate * t)
  let threshold := 0.7 * animation_length
  if t > threshold then initial_speed * Real.exp (-decay_rate * threshold)
  else res

/-- Linear slowdown curve (source lines 188-203):
`max (initial_speed - (initial_speed / animation_length) * t) 0`. -/
noncomputable def linear_slowdown (t animation_length initial_speed : ℝ) : ℝ :=
  let slowdown_rate := initial_speed / animation_length
  max (initial_speed - slowdown_rate * t) 0

/-- Quadratic slowdown curve (source lines 206-222):
`initial_speed * (1 - t / animation_length) ^ 2`. -/
noncomputable def quadratic_slowdown (t animation_length initial_speed : ℝ) : ℝ :=
  let t_norm := t / animation_length
  initial_speed * (1 - t_norm) ^ 2

/-- Cosine slowdown curve (source lines 225-241):
`initial_speed * (1 + cos (min (t / animation_length) 1 * pi)) / 2`. -/
noncomputable def cosine_slowdown (t animation_length initial_speed : ℝ) : ℝ :=
  let phase := min (t / animation_length) 1 * Real.pi
  initial_speed * ((1 + Real.cos phase) / 2)

/-- Cubic smooth-stop slowdown curve (source lines 244-261):
`initial_speed * (1 - t / animation_length) ^ 3`. -/
noncomputable def smooth_stop_slowdown (t animation_length initial_speed : ℝ) : ℝ :=
  let t_norm := t / animation_length
  initial_speed * (1 - t_norm) ^ 3

/-- The curve kinds selectable through the command line plus the floored
exponential variant defined in the source. -/
inductive CurveKind
  | exponential
  | exponential_with_min
  | linear
  | quadratic
  | cosine
  | smooth_stop

/-- The callback `lambda t, length: f(t, length, initial_speed, ...)` built in
`main` for each curve choice. -/
noncomputable def evalCurve (kind : CurveKind) (initial_speed decay_factor : ℝ) :
    ℝ → ℝ → ℝ :=
  match kind with
  | .exponential =>
      fun t length => exponential_slowdown t length initial_speed decay_factor
  | .exponential_with_min =>
      fun t length =>
        exponential_slowdown_with_min t length initial_speed decay_factor
  | .linear => fun t length => linear_slowdown t length initial_speed
  | .quadratic => fun t length => quadratic_slowdown t length initial_speed
  | .cosine => fun t length => cosine_slowdown t length initial_speed
  | .smooth_stop => fun t length => smooth_stop_slowdown t length initial_speed

end Curves

section Lemmas

variable {α : Type*} [LinearOrderedField α] [FloorRing α]

/-- One while-loop step consumes one unit of the remaining-iterations measure
when another iteration follows. -/
lemma steps_measure_succ {L fd t : α} (hfd : 0 < fd) (h2 : t + fd ≤ L) :
    ⌊(L - t) / fd⌋.toNat + 1 = (⌊(L - (t + fd)) / fd⌋.toNat + 1) + 1 := by
  have hkey : (L - (t + fd)) / fd = (L - t) / fd - 1 := by
    field_simp
    ring
  have h1 : 1 ≤ ⌊(L - t) / fd⌋ := by
    rw [Int.le_floor, Int.cast_one]
    rw [one_le_div hfd]
    linarith
  rw [hkey, Int.floor_sub_one]
  omega

/-- The measure is `1` exactly on the last iteration of the while loop. -/
lemma steps_measure_last {L fd t : α} (hfd : 0 < fd) (ht : t ≤ L)
    (h2 : L < t + fd) : ⌊(L - t) / fd⌋.toNat + 1 = 1 := by
  have h0 : ⌊(L - t) / fd⌋ = 0 := by
    rw [Int.floor_eq_zero_iff]
    constructor
    · have : (0:α) ≤ L - t := by linarith
      positivity
    · exact (div_lt_one hfd).mpr (by linarith)
  omega

/-- The integration loop records exactly `floor ((L - t) / fd) + 1` samples
from start time `t ≤ L` (and none from `t > L`), provided the fuel covers that
many iterations. -/
lemma integLoop_angles_length (curve : α → α → α) {L fd : α} (hfd : 0 < fd) :
    ∀ (fuel : ℕ) (t a : α),
      (if t ≤ L then ⌊(L - t) / fd⌋.toNat + 1 else 0) ≤ fuel →
      ((integLoop curve L fd fuel t a).2.1).length
        = if t ≤ L then ⌊(L - t) / fd⌋.toNat + 1 else 0 := by
  intro fuel
  induction fuel with
  | zero =>
    intro t a h
    by_cases ht : t ≤ L
    · rw [if_pos ht] at h
      omega
    · simp [integLoop, if_neg ht, ht]
  | succ n ih =>
    intro t a h
    by_cases ht : t ≤ L
    · rw [if_pos ht] at h ⊢
      simp only [integLoop, if_pos ht, List.length_cons]
      by_cases h2 : t + fd ≤ L
      · have hmeas := steps_measure_succ (L := L) (t := t) hfd h2
        have hbound :
            (if t + fd ≤ L then ⌊(L - (t + fd)) / fd⌋.toNat + 1 else 0) ≤ n := by
          rw [if_pos h2]
          omega
        rw [ih (t + fd) _ hbound, if_pos h2]
        omega
      · have hbound :
            (if t + fd ≤ L then ⌊(L - (t + fd)) / fd⌋.toNat + 1 else 0) ≤ n := by
          rw [if_neg h2]
          omega
        rw [ih (t + fd) _ hbound, if_neg h2]
        exact (steps_measure_last hfd ht (lt_of_not_le h2)).symm
    · simp [integLoop, if_neg ht, ht]

/-- With valid parameters the integrator records `floor (L / fd) + 1` raw
angles. -/
lemma integrate_angles_length (curve : α → α → α) {L fd : α} (hL : 0 ≤ L)
    (hfd : 0 < fd) :
    ((integrate curve L fd).2.1).length = ⌊L / fd⌋.toNat + 1 := by
  unfold integrate integFuel
  rw [if_pos ⟨hL, hfd⟩]
  have hb : (if (0:α) ≤ L then ⌊(L - 0) / fd⌋.toNat + 1 else 0)
      ≤ ⌊L / fd⌋.toNat + 1 := by
    rw [if_pos hL, sub_zero]
  rw [integLoop_angles_length curve hfd _ 0 0 hb, if_pos hL, sub_zero]

/-- With valid parameters the integrator's raw angle list is nonempty. -/
lemma integrate_angles_ne_nil (curve : α → α → α) {L fd : α} (hL : 0 ≤ L)
    (hfd : 0 < fd) : (integrate curve L fd).2.1 ≠ [] := by
  have h := integrate_angles_length curve hL hfd
  intro hnil
  rw [hnil] at h
  simp at h

/-- The first recorded sample of the integrator is time `0` at angle `0`. -/
lemma integrate_head (curve : α → α → α) {L fd : α} (hL : 0 ≤ L)
    (hfd : 0 < fd) :
    (integrate curve L fd).1.head? = some 0 ∧
      (integrate curve L fd).2.1.head? = some 0 := by
  unfold integrate integFuel
  rw [if_pos ⟨hL, hfd⟩]
  simp [integLoop, if_pos hL]

/-- Both normalizer branches only map over the angle list, so the length is
unchanged. -/
lemma normalizeAngles_fst_length (angles : List α) (total_angle : α) :
    ((normalizeAngles angles total_angle).1).length = angles.length := by
  unfold normalizeAngles
  split <;> simp

/-- On a nonempty list, the `angles[-1] = v` assignment succeeds and replaces
the last element. -/
lemma setLast_eq_some (l : List α) (v : α) (h : l ≠ []) :
    setLast l v = some (l.dropLast ++ [v]) := by
  cases l with
  | nil => exact absurd rfl h
  | cons x xs => rfl

/-- Unfolded form of the plan builder when the integrator produced at least
one sample. -/
lemma create_eq_some (curve : α → α → α) (L fd hold : α)
    (h : (integrate curve L fd).2.1 ≠ []) :
    create_rotating_gif_spline curve L fd hold
      = some
        ((((normalizeAngles (integrate curve L fd).2.1
              (integrate curve L fd).2.2).1.dropLast ++ [0])
            ++ holdFrames hold fd).map
          fun angle => (angle, pyInt (fd * 1000))) := by
  have hne : (normalizeAngles (integrate curve L fd).2.1
      (integrate curve L fd).2.2).1 ≠ [] := by
    intro hnil
    have := normalizeAngles_fst_length (integrate curve L fd).2.1
      (integrate curve L fd).2.2
    rw [hnil] at this
    exact h (List.eq_nil_of_length_eq_zero this.symm)
  simp only [create_rotating_gif_spline]
  rw [setLast_eq_some _ _ hne]

/-- A list ending in `c` followed by any number of copies of `c` still ends
in `c`. -/
lemma getLast?_concat_replicate {β : Type*} (l : List β) (c : β) (m : ℕ) :
    ((l ++ [c]) ++ List.replicate m c).getLast? = some c := by
  cases m with
  | zero => simp [List.getLast?_concat]
  | succ n =>
    rw [List.replicate_succ', ← List.append_assoc]
    exact List.getLast?_concat _

/-- With valid parameters the plan is produced and its last frame is
`(0, int (fd * 1000))`. -/
lemma create_getLast (curve : α → α → α) (L fd hold : α) (hL : 0 ≤ L)
    (hfd : 0 < fd) :
    ∃ p, create_rotating_gif_spline curve L fd hold = some p ∧
      p.getLast? = some (0, pyInt (fd * 1000)) := by
  have hne := integrate_angles_ne_nil curve hL hfd
  refine ⟨_, create_eq_some curve L fd hold hne, ?_⟩
  rw [List.getLast?_map]
  have hhold : ∃ m, holdFrames hold fd = List.replicate m (0 : α) := by
    unfold holdFrames
    split
    · exact ⟨_, rfl⟩
    · exact ⟨0, rfl⟩
  obtain ⟨m, hm⟩ := hhold
  rw [hm, getLast?_concat_replicate]
  rfl

end Lemmas

section Claims

variable {α : Type*} [LinearOrderedField α] [FloorRing α]

/-- C1: For every curve kind and every valid input (`animation_length > 0`,
`frame_duration > 0`), the assembled plan is produced and the last frame's
angle equals exactly `0` (the `angles[-1] = 0.0` assignment after the
normalizer). -/
theorem C1_last_frame_angle_zero (kind : CurveKind)
    (initial_speed decay_factor animation_length frame_duration hold_still : ℝ)
    (hL : 0 < animation_length) (hfd : 0 < frame_duration) :
    ∃ p, create_rotating_gif_spline (evalCurve kind initial_speed decay_factor)
        animation_length frame_duration hold_still = some p ∧
      p.getLast? = some (0, pyInt (frame_duration * 1000)) :=
  create_getLast _ _ _ _ hL.le hfd

/-- Witness for C1 at the linear curve with `initial_speed = 720`,
`animation_length = 1`, `frame_duration = 1/2`, `hold_still = 0`. -/
theorem C1_last_frame_angle_zero_witness :
    (0:ℝ) < 1 ∧ (0:ℝ) < 1/2 ∧
      ∃ p, create_rotating_gif_spline (evalCurve .linear 720 3) 1 (1/2) 0
          = some p ∧
        p.getLast? = some (0, pyInt ((1/2 : ℝ) * 1000)) :=
  ⟨by norm_num, by norm_num,
    C1_last_frame_angle_zero .linear 720 3 1 (1/2) 0 (by norm_num) (by norm_num)⟩

/-- C2 (counterexample): in scenario A (`linear` curve, `initial_speed = 720`,
`animation_length = 1`, `frame_duration = 1/2`) the loop `while t <= L` also
records the sample at `t = 1`, so the raw angles are not `[0, 360]`, the
accumulated total is not `360`, and the final plan is not the claimed two
frames. -/
theorem C2_scenario_A_counterexample :
    ¬((integrate linearCurve720 1 (1/2)).2.1 = [0, 360] ∧
      (integrate linearCurve720 1 (1/2)).2.2 = 360 ∧
      create_rotating_gif_spline linearCurve720 1 (1/2) 0
        = some [(0, 500), (0, 500)]) := by
  intro h
  have h1 := h.1
  norm_num [integrate, integFuel, integLoop, linearCurve720,
    linear_slowdown_rat] at h1

/-- C2 (amended): in scenario A the integrator produces raw angles
`[0, 360, 540]` with `total_angle = 540`; the normalizer rounds `540 / 360`
to `2` full rotations, giving scale factor `4/3`, and the final plan is the
three frames `[(0°, 500ms), (120°, 500ms), (0°, 500ms)]`. -/
theorem C2_scenario_A_actual :
    (integrate linearCurve720 1 (1/2)).2.1 = [0, 360, 540] ∧
    (integrate linearCurve720 1 (1/2)).2.2 = 540 ∧
    pyRound ((540 : ℚ) / 360) = 2 ∧
    ((2:ℤ) : ℚ) * 360 / 540 = 4 / 3 ∧
    create_rotating_gif_spline linearCurve720 1 (1/2) 0
      = some [(0, 500), (120, 500), (0, 500)] := by
  refine ⟨?_, ?_, ?_, ?_, ?_⟩
  · norm_num [integrate, integFuel, integLoop, linearCurve720,
      linear_slowdown_rat]
  · norm_num [integrate, integFuel, integLoop, linearCurve720,
      linear_slowdown_rat]
  · norm_num [pyRound]
  · norm_num
  · norm_num [create_rotating_gif_spline, integrate, integFuel, integLoop,
      linearCurve720, linear_slowdown_rat, normalizeAngles, pyRound, pymod,
      setLast, holdFrames, pyInt]

/-- C3: whenever the accumulated `total_angle` is at least `270`, the
normalizer multiplies every raw sample by
`scale = round (total_angle / 360) * 360 / total_angle` before the modulo,
and the updated cumulative angle is exactly `round (total_angle / 360) * 360`,
an integer multiple of `360` (exact, hence within any tolerance). -/
theorem C3_rescale_exact_multiple (angles : List α) (total_angle : α)
    (h : 270 ≤ total_angle) :
    (normalizeAngles angles total_angle).1
        = angles.map (fun angle =>
            pymod
              (angle * ((pyRound (total_angle / 360) : α) * 360 / total_angle))
              360) ∧
      (normalizeAngles angles total_angle).2
        = (pyRound (total_angle / 360) : α) * 360 ∧
      ∃ n : ℤ, (normalizeAngles angles total_angle).2 = (n : α) * 360 := by
  refine ⟨?_, ?_, ⟨pyRound (total_angle / 360), ?_⟩⟩
  · unfold normalizeAngles
    rw [if_neg (not_lt.mpr h)]
    simp only [List.map_map]
    rfl
  · unfold normalizeAngles
    rw [if_neg (not_lt.mpr h)]
  · unfold normalizeAngles
    rw [if_neg (not_lt.mpr h)]

/-- Witness for C3 at raw angles `[0, 100, 200]` with `total_angle = 300`. -/
theorem C3_rescale_exact_multiple_witness :
    (270 : ℚ) ≤ 300 ∧
      ((normalizeAngles [0, 100, 200] (300 : ℚ)).1
          = [(0 : ℚ), 100, 200].map (fun angle =>
              pymod (angle * ((pyRound ((300:ℚ) / 360) : ℚ) * 360 / 300)) 360) ∧
        (normalizeAngles [0, 100, 200] (300 : ℚ)).2
          = (pyRound ((300:ℚ) / 360) : ℚ) * 360 ∧
        ∃ n : ℤ, (normalizeAngles [0, 100, 200] (300 : ℚ)).2 = (n : ℚ) * 360) :=
  ⟨by norm_num, C3_rescale_exact_multiple [0, 100, 200] 300 (by norm_num)⟩

/-- C4 (code bug): the source performs no parameter validation at all.  With
`frame_duration ≤ 0` the `while current_time <= animation_length` loop never
advances past the bound, so for every amount of fuel the loop is still
running and has recorded as many samples as the fuel allowed: the code loops
forever instead of failing with an InvalidParameter condition. -/
theorem C4_no_validation_loop_diverges (curve : α → α → α)
    (animation_length frame_duration : α) (hfd : frame_duration ≤ 0) :
    ∀ (fuel : ℕ) (t a : α), t ≤ animation_length →
      ((integLoop curve animation_length frame_duration fuel t a).1).length
        = fuel := by
  intro fuel
  induction fuel with
  | zero => intro t a ht; rfl
  | succ n ih =>
    intro t a ht
    have ht' : t + frame_duration ≤ animation_length := by linarith
    simp only [integLoop, if_pos ht, List.length_cons]
    rw [ih _ _ ht']

/-- Witness for C4: with `frame_duration = 0` and `animation_length = 1` the
loop has consumed every unit of fuel (here `5`) without terminating. -/
theorem C4_no_validation_loop_diverges_witness :
    (0:ℚ) ≤ 0 ∧ (0:ℚ) ≤ 1 ∧
      ((integLoop linearCurve720 1 0 5 0 0).1).length = 5 :=
  ⟨le_refl 0, by norm_num,
    C4_no_validation_loop_diverges linearCurve720 1 0 (le_refl 0) 5 0 0
      (by norm_num)⟩

/-- C5: for `animation_length > 0` and `frame_duration > 0` the integrator
records `floor (animation_length / frame_duration) + 1` samples. -/
theorem C5_sample_count (curve : α → α → α)
    (animation_length frame_duration : α) (hL : 0 < animation_length)
    (hfd : 0 < frame_duration) :
    (((integrate curve animation_length frame_duration).2.1).length : ℤ)
      = ⌊animation_length / frame_duration⌋ + 1 := by
  rw [integrate_angles_length curve hL.le hfd]
  have h0 : 0 ≤ ⌊animation_length / frame_duration⌋ :=
    Int.floor_nonneg.mpr (by positivity)
  push_cast
  omega

/-- Witness for C5 at `animation_length = 1`, `frame_duration = 1/2`:
`floor (1 / (1/2)) + 1 = 3` samples. -/
theorem C5_sample_count_witness :
    (0:ℚ) < 1 ∧ (0:ℚ) < 1/2 ∧
      (((integrate linearCurve720 1 (1/2)).2.1).length : ℤ)
        = ⌊(1:ℚ) / (1/2)⌋ + 1 :=
  ⟨by norm_num, by norm_num,
    C5_sample_count linearCurve720 1 (1/2) (by norm_num) (by norm_num)⟩

/-- C6: for `hold_still ≥ 0` and `frame_duration > 0` the hold-still extender
appends exactly `floor (hold_still / frame_duration)` frames, every one at
angle `0`. -/
theorem C6_hold_still_frames (hold_still frame_duration : α)
    (hh : 0 ≤ hold_still) (hfd : 0 < frame_duration) :
    (holdFrames hold_still frame_duration).length
        = ⌊hold_still / frame_duration⌋.toNat ∧
      ∀ a ∈ holdFrames hold_still frame_duration, a = 0 := by
  constructor
  · unfold holdFrames
    by_cases h : 0 < hold_still
    · rw [if_pos h, List.length_replicate]
      unfold pyInt
      rw [if_pos (by positivity)]
    · rw [if_neg h]
      have h0 : hold_still = 0 := le_antisymm (not_lt.mp h) hh
      simp [h0]
  · intro a ha
    unfold holdFrames at ha
    split at ha
    · exact List.eq_of_mem_replicate ha
    · simp at ha

/-- Witness for C6 at `hold_still = 3/10`, `frame_duration = 1/10`: exactly
`3` appended frames, all at angle `0`. -/
theorem C6_hold_still_frames_witness :
    (0:ℚ) ≤ 3/10 ∧ (0:ℚ) < 1/10 ∧ ⌊(3/10 : ℚ) / (1/10)⌋.toNat = 3 ∧
      ((holdFrames (3/10 : ℚ) (1/10)).length = ⌊(3/10 : ℚ) / (1/10)⌋.toNat ∧
        ∀ a ∈ holdFrames (3/10 : ℚ) (1/10), a = 0) :=
  ⟨by norm_num, by norm_num, by norm_num; rfl,
    C6_hold_still_frames (3/10) (1/10) (by norm_num) (by norm_num)⟩

/-- C7 (counterexample): the cubic smooth-stop evaluator returns a negative
velocity for `t` beyond the animation length: at `t = 2`,
`animation_length = 1`, `initial_speed = 1080` it returns `-1080`. -/
theorem C7_counterexample : smooth_stop_slowdown 2 1 1080 < 0 := by
  norm_num [smooth_stop_slowdown]

/-- C7 (amended): every curve evaluator variant returns a non-negative value
(finite by construction, being a real number) for `0 ≤ t ≤ animation_length`
with `animation_length > 0`, `initial_speed > 0` and `decay_factor > 0`;
without the bound `t ≤ animation_length` the cubic smooth-stop variant can
return negative velocities. -/
theorem C7_curves_nonneg (kind : CurveKind) (t animation_length v0 k : ℝ)
    (ht : 0 ≤ t) (htL : t ≤ animation_length) (hL : 0 < animation_length)
    (hv0 : 0 < v0) (hk : 0 < k) :
    0 ≤ evalCurve kind v0 k t animation_length := by
  have hdiv1 : t / animation_length ≤ 1 := (div_le_one hL).mpr htL
  cases kind with
  | exponential =>
    simp only [evalCurve, exponential_slowdown]
    positivity
  | exponential_with_min =>
    simp only [evalCurve, exponential_slowdown_with_min]
    split <;> positivity
  | linear =>
    simp only [evalCurve, linear_slowdown]
    exact le_max_right _ 0
  | quadratic =>
    simp only [evalCurve, quadratic_slowdown]
    positivity
  | cosine =>
    simp only [evalCurve, cosine_slowdown]
    have h1 : (-1 : ℝ) ≤ Real.cos (min (t / animation_length) 1 * Real.pi) :=
      Real.neg_one_le_cos _
    have h2 : (0:ℝ) ≤ (1 + Real.cos (min (t / animation_length) 1 * Real.pi)) / 2 := by
      linarith
    exact mul_nonneg hv0.le h2
  | smooth_stop =>
    simp only [evalCurve, smooth_stop_slowdown]
    have h2 : (0:ℝ) ≤ 1 - t / animation_length := by linarith
    exact mul_nonneg hv0.le (pow_nonneg h2 3)

/-- Witness for the amended C7 at the smooth-stop curve with `t = 1`,
`animation_length = 2`, `initial_speed = 1080`, `decay_factor = 3`. -/
theorem C7_curves_nonneg_witness :
    (0:ℝ) ≤ 1 ∧ (1:ℝ) ≤ 2 ∧ (0:ℝ) < 2 ∧ (0:ℝ) < 1080 ∧ (0:ℝ) < 3 ∧
      0 ≤ evalCurve .smooth_stop 1080 3 1 2 :=
  ⟨by norm_num, by norm_num, by norm_num, by norm_num, by norm_num,
    C7_curves_nonneg .smooth_stop 1 2 1080 3 (by norm_num) (by norm_num)
      (by norm_num) (by norm_num) (by norm_num)⟩

/-- C8: when the accumulated `total_angle` stays below `270`, the normalizer
applies no rescaling — each sample is its raw value reduced modulo `360` and
the cumulative total is untouched — and the plan is still produced (the
degenerate rotation is only a printed note, not an error). -/
theorem C8_degenerate_no_rescale (curve : α → α → α)
    (animation_length frame_duration hold_still : α)
    (hL : 0 ≤ animation_length) (hfd : 0 < frame_duration)
    (hdeg : (integrate curve animation_length frame_duration).2.2 < 270) :
    (normalizeAngles (integrate curve animation_length frame_duration).2.1
          (integrate curve animation_length frame_duration).2.2).1
        = (integrate curve animation_length frame_duration).2.1.map
            (fun angle => pymod angle 360) ∧
      (normalizeAngles (integrate curve animation_length frame_duration).2.1
          (integrate curve animation_length frame_duration).2.2).2
        = (integrate curve animation_length frame_duration).2.2 ∧
      (create_rotating_gif_spline curve animation_length frame_duration
          hold_still).isSome = true := by
  refine ⟨?_, ?_, ?_⟩
  · unfold normalizeAngles
    rw [if_pos hdeg]
  · unfold normalizeAngles
    rw [if_pos hdeg]
  · obtain ⟨p, hp, -⟩ := create_getLast curve _ _ hold_still hL hfd
    rw [hp]
    rfl

/-- Witness for C8 at the linear curve with `initial_speed = 100`,
`animation_length = 1`, `frame_duration = 1`: the accumulated total is
`100 < 270`. -/
theorem C8_degenerate_no_rescale_witness :
    (0:ℚ) ≤ 1 ∧ (0:ℚ) < 1 ∧ (integrate linearCurve100 1 1).2.2 < 270 ∧
      ((normalizeAngles (integrate linearCurve100 1 1).2.1
            (integrate linearCurve100 1 1).2.2).1
          = (integrate linearCurve100 1 1).2.1.map
              (fun angle => pymod angle 360) ∧
        (normalizeAngles (integrate linearCurve100 1 1).2.1
            (integrate linearCurve100 1 1).2.2).2
          = (integrate linearCurve100 1 1).2.2 ∧
        (create_rotating_gif_spline linearCurve100 1 1 0).isSome = true) :=
  ⟨by norm_num, by norm_num,
    by norm_num [integrate, integFuel, integLoop, linearCurve100,
      linear_slowdown_rat],
    C8_degenerate_no_rescale linearCurve100 1 1 0 (by norm_num) (by norm_num)
      (by norm_num [integrate, integFuel, integLoop, linearCurve100,
        linear_slowdown_rat])⟩

/-- C9: every frame of any produced plan — hold-still frames included —
carries the same duration, `int (frame_duration * 1000)` milliseconds
(truncation toward zero, as `pyInt` is defined, not rounding). -/
theorem C9_uniform_duration (curve : α → α → α)
    (animation_length frame_duration hold_still : α) (p : List (α × ℤ))
    (hp : create_rotating_gif_spline curve animation_length frame_duration
        hold_still = some p) :
    ∀ f ∈ p, f.2 = pyInt (frame_duration * 1000) := by
  simp only [create_rotating_gif_spline] at hp
  split at hp
  · simp at hp
  · injection hp with hp
    subst hp
    intro f hf
    rw [List.mem_map] at hf
    obtain ⟨a, -, rfl⟩ := hf
    rfl

/-- Witness for C9 at the linear 720 curve, `animation_length = 1`,
`frame_duration = 1/2`: every frame of the produced plan lasts
`int (500) = 500` milliseconds. -/
theorem C9_uniform_duration_witness :
    create_rotating_gif_spline linearCurve720 1 (1/2) 0
        = some [(0, 500), (120, 500), (0, 500)] ∧
      ∀ f ∈ [((0:ℚ), (500:ℤ)), (120, 500), (0, 500)],
        f.2 = pyInt ((1/2 : ℚ) * 1000) :=
  ⟨by norm_num [create_rotating_gif_spline, integrate, integFuel, integLoop,
      linearCurve720, linear_slowdown_rat, normalizeAngles, pyRound, pymod,
      setLast, holdFrames, pyInt],
    C9_uniform_duration linearCurve720 1 (1/2) 0 _
      (by norm_num [create_rotating_gif_spline, integrate, integFuel,
        integLoop, linearCurve720, linear_slowdown_rat, normalizeAngles,
        pyRound, pymod, setLast, holdFrames, pyInt])⟩

/-- C10: for `animation_length ≥ 0` and `frame_duration > 0` the integrator
records a first sample at time `0` with angle `0`, so the normalized angle
list is nonempty and the `angles[-1] = 0` assignment cannot hit its
out-of-bounds branch. -/
theorem C10_first_sample (curve : α → α → α)
    (animation_length frame_duration : α) (hL : 0 ≤ animation_length)
    (hfd : 0 < frame_duration) :
    (integrate curve animation_length frame_duration).1.head? = some 0 ∧
      (integrate curve animation_length frame_duration).2.1.head? = some 0 ∧
      setLast (normalizeAngles
          (integrate curve animation_length frame_duration).2.1
          (integrate curve animation_length frame_duration).2.2).1 0
        ≠ none := by
  obtain ⟨h1, h2⟩ := integrate_head curve hL hfd
  refine ⟨h1, h2, ?_⟩
  have hlen := normalizeAngles_fst_length
    (integrate curve animation_length frame_duration).2.1
    (integrate curve animation_length frame_duration).2.2
  have hne : (normalizeAngles
      (integrate curve animation_length frame_duration).2.1
      (integrate curve animation_length frame_duration).2.2).1 ≠ [] := by
    intro hnil
    rw [hnil] at hlen
    exact integrate_angles_ne_nil curve hL hfd
      (List.eq_nil_of_length_eq_zero hlen.symm)
  rw [setLast_eq_some _ _ hne]
  simp

/-- Witness for C10 at the linear 720 curve, `animation_length = 1`,
`frame_duration = 1/2`. -/
theorem C10_first_sample_witness :
    (0:ℚ) ≤ 1 ∧ (0:ℚ) < 1/2 ∧
      ((integrate linearCurve720 1 (1/2)).1.head? = some 0 ∧
        (integrate linearCurve720 1 (1/2)).2.1.head? = some 0 ∧
        setLast (normalizeAngles (integrate linearCurve720 1 (1/2)).2.1
            (integrate linearCurve720 1 (1/2)).2.2).1 0 ≠ none) :=
  ⟨by norm_num, by norm_num,
    C10_first_sample linearCurve720 1 (1/2) (by norm_num) (by norm_num)⟩

end Claims

end LifeTools
